import Mathlib

/-!
Shallow embedding of the films_recommendation engine:
`backend/svd_model.py` (the `SVDModel` class) and
`backend/routers/recommendations_router.py` (content similarity, popularity
list, hybrid recommendation endpoint).

Modelling conventions:
* Machine floats are modelled by `NFloat` (a rational number or NaN);
  `np.mean` of an empty array is NaN, and arithmetic propagates NaN.
* `np.argsort`, `pandas.sort_values` and Python `sorted`/`list.sort` are
  modelled as stable sorts (`List.insertionSort`); CPython sorts are stable
  and numpy introsort agrees with the stable order on the inputs considered
  here.
* Module-level state of the router (the movie table, the TF-IDF matrix, the
  cached popular-id list, the loaded model) is passed as a `RecCtx` record.
* Cosine similarity is embedded by its square (`cosSimSq`), which is a
  rational; since TF-IDF vectors are componentwise nonnegative, all cosines
  are in `[0, 1]` and squaring preserves both order and ties, so every
  comparison made by the code is unchanged.
* Python exceptions are modelled by `Except`.
-/

attribute [local semireducible] Rat.mul Rat.inv Rat.add Rat.sub

set_option maxRecDepth 40000

namespace FilmsRec

/-- A numpy/Python float scalar: a rational value or NaN. -/
inductive NFloat where
  | nan : NFloat
  | val : ℚ → NFloat
deriving DecidableEq, Repr

/-- Float addition; NaN propagates. -/
def NFloat.add : NFloat → NFloat → NFloat
  | .val a, .val b => .val (a + b)
  | _, _ => .nan

/-- `np.clip(x, lo, hi)` = `min(max(x, lo), hi)`; NaN propagates. -/
def NFloat.clip (lo hi : ℚ) : NFloat → NFloat
  | .val a => .val (min (max a lo) hi)
  | .nan => .nan

/-- Float `<=` as used by sort comparators; any comparison with NaN is false. -/
def NFloat.le : NFloat → NFloat → Bool
  | .val a, .val b => decide (a ≤ b)
  | _, _ => false

/-- `np.dot` on two equal-length 1-d arrays (both sides always have length
`n_factors` in the code; extra trailing entries of a longer side are ignored). -/
def dotQ : List ℚ → List ℚ → ℚ
  | a :: as, b :: bs => a * b + dotQ as bs
  | _, _ => 0

/-- Componentwise vector sum (numpy `+` on equal-length rows). -/
def vAdd (a b : List ℚ) : List ℚ := List.zipWith (· + ·) a b

/-- Componentwise vector difference (numpy `-` on equal-length rows). -/
def vSub (a b : List ℚ) : List ℚ := List.zipWith (· - ·) a b

/-- Scalar times vector (numpy scalar broadcasting). -/
def vSmul (c : ℚ) (v : List ℚ) : List ℚ := v.map (fun x => c * x)

/-- Python dict lookup for the id-to-index maps (`user_map`, `item_map`),
represented as association lists. -/
def lookupIdx : List (ℤ × ℕ) → ℤ → Option ℕ
  | [], _ => none
  | (k, v) :: rest, key => if key = k then some v else lookupIdx rest key

/-- `np.unique`: the distinct values of the input, in ascending order. -/
def uniqueSorted (l : List ℤ) : List ℤ :=
  List.insertionSort (fun a b => a ≤ b) l.dedup

/-- `{uid: idx for idx, uid in enumerate(l)}` starting at index `s`. -/
def enumIdx : List ℤ → ℕ → List (ℤ × ℕ)
  | [], _ => []
  | x :: xs, s => (x, s) :: enumIdx xs (s + 1)

instance {ε α : Type} [DecidableEq ε] [DecidableEq α] : DecidableEq (Except ε α)
  | .error a, .error b =>
    if h : a = b then .isTrue (by rw [h]) else .isFalse (by simp [h])
  | .error _, .ok _ => .isFalse (by simp)
  | .ok _, .error _ => .isFalse (by simp)
  | .ok a, .ok b =>
    if h : a = b then .isTrue (by rw [h]) else .isFalse (by simp [h])

/-- Python exceptions that the embedded code can raise. -/
inductive PyErr where
  | zeroDivisionError
  | typeError
  | indexError
deriving DecidableEq, Repr

/-- The `SVDModel` object state (`backend/svd_model.py`).  The bias and factor
arrays are `Option`s because `__init__` sets them to `None`. -/
structure SVDModel where
  n_factors : ℕ
  n_epochs : ℕ
  lr : ℚ
  reg : ℚ
  global_mean : NFloat
  user_bias : Option (List ℚ)
  item_bias : Option (List ℚ)
  user_factors : Option (List (List ℚ))
  item_factors : Option (List (List ℚ))
  user_map : List (ℤ × ℕ)
  item_map : List (ℤ × ℕ)
deriving DecidableEq, Repr

/-- `SVDModel.__init__(n_factors, n_epochs, lr, reg)`. -/
def SVDModel.init (n_factors n_epochs : ℕ) (lr reg : ℚ) : SVDModel :=
  ⟨n_factors, n_epochs, lr, reg, .val 0, none, none, none, none, [], []⟩

/-- `SVDModel.predict(user_id, item_id)`.  Unknown ids return `global_mean`;
known ids index the bias/factor arrays (a `None` array would raise a
`TypeError`, an out-of-range index an `IndexError`) and the linear predictor
is clipped to `[0.5, 5.0]`. -/
def SVDModel.predict (m : SVDModel) (user_id item_id : ℤ) : Except PyErr NFloat :=
  match lookupIdx m.user_map user_id, lookupIdx m.item_map item_id with
  | some u, some i =>
    match m.user_bias, m.item_bias, m.user_factors, m.item_factors with
    | some bu, some bi, some P, some Q =>
      if u < bu.length ∧ i < bi.length ∧ u < P.length ∧ i < Q.length then
        .ok ((((m.global_mean.add (.val (bu.getD u 0))).add (.val (bi.getD i 0))).add
          (.val (dotQ (P.getD u []) (Q.getD i [])))).clip (1/2) 5)
      else .error .indexError
    | _, _, _, _ => .error .typeError
  | _, _ => .ok m.global_mean

/-- The mutable training arrays during `SVDModel.fit`. -/
structure TrainState where
  user_bias : List ℚ
  item_bias : List ℚ
  user_factors : List (List ℚ)
  item_factors : List (List ℚ)
deriving DecidableEq, Repr

/-- One SGD update of `SVDModel.fit` for the triple at `(u, i, r)`, executed
exactly in the source's statement order: predict, user-bias update, item-bias
update, copy `uf` of the user row, user-factor update, item-factor update
(reading the copy `uf`). -/
def sgdStep (lr reg gm : ℚ) (s : TrainState) (u i : ℕ) (r : ℚ) : TrainState :=
  let pred := gm + s.user_bias.getD u 0 + s.item_bias.getD i 0 +
    dotQ (s.user_factors.getD u []) (s.item_factors.getD i [])
  let err := r - pred
  let s1 := { s with
    user_bias := s.user_bias.set u (s.user_bias.getD u 0 + lr * (err - reg * s.user_bias.getD u 0)) }
  let s2 := { s1 with
    item_bias := s1.item_bias.set i (s1.item_bias.getD i 0 + lr * (err - reg * s1.item_bias.getD i 0)) }
  let uf := s2.user_factors.getD u []
  let s3 := { s2 with
    user_factors := s2.user_factors.set u (vAdd (s2.user_factors.getD u []) (vSmul lr (vSub (vSmul err (s2.item_factors.getD i [])) (vSmul reg (s2.user_factors.getD u []))))) }
  { s3 with
    item_factors := s3.item_factors.set i (vAdd (s3.item_factors.getD i []) (vSmul lr (vSub (vSmul err uf) (vSmul reg (s3.item_factors.getD i []))))) }

/-- Deterministic model of `np.random.default_rng(42)`: `normals k` is the
k-th draw of `rng.normal(0, 0.1, shape)` in row-major order (user factors
first, then item factors), and `shuffles e n` is the order produced by
`rng.shuffle` of `np.arange(n)` in epoch `e`.  Both are pure functions, which
is exactly what seeding the generator guarantees. -/
structure Rng where
  normals : ℕ → ℚ
  shuffles : ℕ → ℕ → List ℕ

/-- `rng.normal(0, 0.1, (rows, cols))`, reading draws `off`, `off+1`, … . -/
def initFactors (normals : ℕ → ℚ) (off rows cols : ℕ) : List (List ℚ) :=
  (List.range rows).map fun r => (List.range cols).map fun c => normals (off + r * cols + c)

/-- One epoch of `SVDModel.fit`: visit the training triples in the shuffled
`order` and apply `sgdStep` to each. -/
def runEpoch (lr reg gm : ℚ) (uIdx iIdx : List ℕ) (ratings : List ℚ)
    (order : List ℕ) (s : TrainState) : TrainState :=
  order.foldl (fun st idx => sgdStep lr reg gm st (uIdx.getD idx 0) (iIdx.getD idx 0)
    (ratings.getD idx 0)) s

/-- `SVDModel.fit(user_ids, item_ids, ratings)`.  Returns the object state
after the call together with the exception it raised, if any: on an empty
ratings array the id maps, `global_mean` (NaN, from `np.mean([])`), the zero
bias arrays and the random factor matrices are all assigned first, and the
first epoch then raises `ZeroDivisionError` computing
`np.sqrt(total_error / len(ratings))` (the RMSE print; its square root is
otherwise diagnostic-only and not part of the state, so it is not modelled
further). -/
def SVDModel.fit (m : SVDModel) (rng : Rng) (user_ids item_ids : List ℤ)
    (ratings : List ℚ) : SVDModel × Option PyErr :=
  let unique_users := uniqueSorted user_ids
  let unique_items := uniqueSorted item_ids
  let user_map := enumIdx unique_users 0
  let item_map := enumIdx unique_items 0
  let n_users := unique_users.length
  let n_items := unique_items.length
  let gmQ : ℚ := ratings.sum / ratings.length
  let global_mean : NFloat := if ratings.isEmpty then .nan else .val gmQ
  let P := initFactors rng.normals 0 n_users m.n_factors
  let Q := initFactors rng.normals (n_users * m.n_factors) n_items m.n_factors
  let uIdx := user_ids.map fun u => (lookupIdx user_map u).getD 0
  let iIdx := item_ids.map fun i => (lookupIdx item_map i).getD 0
  let s0 : TrainState := ⟨List.replicate n_users 0, List.replicate n_items 0, P, Q⟩
  if ratings.length = 0 ∧ m.n_epochs ≠ 0 then
    ({ m with
        user_map := user_map,
        item_map := item_map,
        global_mean := global_mean,
        user_bias := some s0.user_bias,
        item_bias := some s0.item_bias,
        user_factors := some P,
        item_factors := some Q }, some .zeroDivisionError)
  else
    let sF := (List.range m.n_epochs).foldl
      (fun st e => runEpoch m.lr m.reg gmQ uIdx iIdx ratings (rng.shuffles e ratings.length) st) s0
    ({ m with
        user_map := user_map,
        item_map := item_map,
        global_mean := global_mean,
        user_bias := some sF.user_bias,
        item_bias := some sF.item_bias,
        user_factors := some sF.user_factors,
        item_factors := some sF.item_factors }, none)

/-- One row of `movies_df` (`movies.csv`: movieId, title, genres). -/
structure Movie where
  movieId : ℤ
  title : String
  genres : String
deriving DecidableEq, Repr

/-- One element of the rating history returned by
`get_ratings_for_user(user_id)`. -/
structure UserRating where
  movie_id : ℤ
  rating : ℚ
deriving DecidableEq, Repr

/-- One entry of the response list built by `_predict_svd_ratings`. -/
structure Prediction where
  movieId : ℤ
  title : String
  genres : String
  predicted_rating : NFloat
deriving DecidableEq, Repr

/-- The module-level state of `recommendations_router.py`, loaded once at
import: the movie table, the TF-IDF row of each movie (row `i` is the vector
of movie `i`; built from `genres_clean` by `TfidfVectorizer`), the cached
popular-movie ids and the unpickled model (or `None`). -/
structure RecCtx where
  movies_df : List Movie
  tfidf_matrix : List (List ℚ)
  popular_movie_ids : List ℤ
  svd_model : Option SVDModel
deriving Repr

/-- `sklearn.metrics.pairwise.cosine_similarity` of two rows, embedded by its
square: `dot(a,b)^2 / (dot(a,a) * dot(b,b))`, and `0` when either row is the
zero vector (sklearn substitutes norm 1 for zero-norm rows).  TF-IDF entries
are nonnegative, so every true cosine is in `[0, 1]` and `x ↦ x^2` preserves
both the order and the ties of the scores; all the code does with the scores
is compare them (`argsort`), so this rational embedding is faithful. -/
def cosSimSq (a b : List ℚ) : ℚ :=
  let na := dotQ a a
  let nb := dotQ b b
  if na = 0 ∨ nb = 0 then 0 else dotQ a b ^ 2 / (na * nb)

/-- `np.argsort(scores)` modelled as the stable ascending sort of the index
range (ties in index order). -/
def argsortAsc (scores : List ℚ) : List ℕ :=
  List.insertionSort (fun a b => scores.getD a 0 ≤ scores.getD b 0) (List.range scores.length)

/-- `sim_scores = cosine_similarity(_tfidf_matrix[idx], _tfidf_matrix).flatten()`
(embedded through the squared cosine, see `cosSimSq`). -/
def sim_scores (ctx : RecCtx) (idx : ℕ) : List ℚ :=
  ctx.tfidf_matrix.map fun row => cosSimSq (ctx.tfidf_matrix.getD idx []) row

/-- The row positions selected by `_get_content_similar_movies` once the query
row `idx` is known: `sim_scores.argsort()[::-1][1 : top_n + 1]`. -/
def similarIndices (ctx : RecCtx) (idx : ℕ) (top_n : ℕ) : List ℕ :=
  (((argsortAsc (sim_scores ctx idx)).reverse).drop 1).take top_n

/-- `_get_content_similar_movies(movie_id, top_n)`.  An id absent from
`movies_df` yields `[]`; otherwise the selected rows' movieIds. -/
def get_content_similar_movies (ctx : RecCtx) (movie_id : ℤ) (top_n : ℕ) : List ℤ :=
  match ctx.movies_df.findIdx? (fun mv => decide (mv.movieId = movie_id)) with
  | none => []
  | some idx => (similarIndices ctx idx top_n).map fun j => (ctx.movies_df.getD j ⟨0, "", ""⟩).movieId

/-- Python `round(x, 2)` for the rational part: nearest integer multiple of
`1/100`, halves to even. -/
def roundHalfEven (x : ℚ) : ℤ :=
  let f := ⌊x⌋
  if x - f < 1/2 then f
  else if 1/2 < x - f then f + 1
  else if 2 ∣ f then f else f + 1

/-- Python `round(x, 2)`; `round(nan, 2)` is NaN. -/
def round2 : NFloat → NFloat
  | .nan => .nan
  | .val q => .val ((roundHalfEven (q * 100) : ℚ) / 100)

/-- The per-candidate score inside `_predict_svd_ratings`:
`svd_model.predict(user_id, mid)` when a model is loaded, else the constant
fallback `3.0`. -/
def candidate_score (ctx : RecCtx) (user_id mid : ℤ) : Except PyErr NFloat :=
  match ctx.svd_model with
  | some m => m.predict user_id mid
  | none => .ok (.val 3)

/-- `_predict_svd_ratings(user_id, movie_ids)`: skip ids absent from
`movies_df`, score the rest with the model (or the constant `3.0` when no
model is loaded), rounding to two decimals. -/
def predict_svd_ratings (ctx : RecCtx) (user_id : ℤ) : List ℤ → Except PyErr (List Prediction)
  | [] => .ok []
  | mid :: rest =>
    match ctx.movies_df.find? (fun mv => decide (mv.movieId = mid)) with
    | none => predict_svd_ratings ctx user_id rest
    | some row =>
      match candidate_score ctx user_id mid with
      | .error e => .error e
      | .ok predicted_rating =>
        match predict_svd_ratings ctx user_id rest with
        | .error e => .error e
        | .ok results => .ok (⟨mid, row.title, row.genres, round2 predicted_rating⟩ :: results)

/-- A raised `fastapi.HTTPException`. -/
structure HTTPError where
  status_code : ℕ
  detail : String
deriving DecidableEq, Repr

/-- The value returned by the `/recommendations` endpoint. -/
structure RecResult where
  user_id : ℤ
  seed_movie_id : ℤ
  recommendations : List Prediction
deriving DecidableEq, Repr

/-- Errors escaping `get_recommendations`: a raised `HTTPException` or a
Python exception from the model. -/
inductive RecError where
  | http : HTTPError → RecError
  | py : PyErr → RecError
deriving DecidableEq, Repr

/-- Step 1 of `get_recommendations`: `liked = [r for r in user_ratings if
r["rating"] >= 4.0]`, the fallback `liked = sorted(user_ratings,
key=rating, reverse=True)` when that is empty, and
`seed_movie_id = liked[-1]["movie_id"]`. -/
def seedId (user_ratings : List UserRating) : ℤ :=
  let liked0 := user_ratings.filter fun r => decide (4 ≤ r.rating)
  let liked := if liked0.isEmpty
    then List.insertionSort (fun a b => b.rating ≤ a.rating) user_ratings
    else liked0
  ((liked.getLast?).map fun r => r.movie_id).getD 0

/-- Step 2 of `get_recommendations`: the 30 genre-similar candidates (or the
popularity fallback when that list is empty), with every movie already rated
by the user removed. -/
def candidate_ids (ctx : RecCtx) (user_ratings : List UserRating) : List ℤ :=
  let similar0 := get_content_similar_movies ctx (seedId user_ratings) 30
  let similar1 := if similar0.isEmpty then ctx.popular_movie_ids.take 30 else similar0
  let rated_ids := user_ratings.map fun r => r.movie_id
  similar1.filter fun mid => decide (mid ∉ rated_ids)

/-- `get_recommendations` (the `/recommendations` endpoint), as a function of
the module state, the authenticated user's id and their rating history. -/
def get_recommendations (ctx : RecCtx) (user_id : ℤ) (user_ratings : List UserRating) :
    Except RecError RecResult :=
  if user_ratings.isEmpty then
    .error (.http ⟨400, "No ratings found. Please rate some movies first (cold start)."⟩)
  else
    match predict_svd_ratings ctx user_id (candidate_ids ctx user_ratings) with
    | .error e => .error (.py e)
    | .ok predictions =>
      let sorted := List.insertionSort
        (fun a b => NFloat.le b.predicted_rating a.predicted_rating = true) predictions
      .ok ⟨user_id, seedId user_ratings, sorted.take 10⟩

/-- One aggregated row of
`_ratings_sample.groupby("movieId").agg(count, mean)`; `groupby` emits the
keys in ascending order. -/
structure PopRow where
  movieId : ℤ
  count : ℕ
  mean : ℚ
deriving DecidableEq, Repr

/-- The aggregation table `_popularity`, built from the `(movieId, rating)`
pairs of the ratings sample. -/
def popularity (ratings : List (ℤ × ℚ)) : List PopRow :=
  (uniqueSorted (ratings.map Prod.fst)).map fun mid =>
    let vals := (ratings.filter fun rv => decide (rv.1 = mid)).map Prod.snd
    ⟨mid, vals.length, vals.sum / vals.length⟩

/-- `_popular_movie_ids`: rows with at least 100 ratings, sorted descending by
mean rating (`sort_values` modelled as stable), first 50 ids. -/
def popular_movie_ids (ratings : List (ℤ × ℚ)) : List ℤ :=
  let pop := (popularity ratings).filter fun g => decide (100 ≤ g.count)
  let sorted := List.insertionSort (fun a b => b.mean ≤ a.mean) pop
  (sorted.map fun g => g.movieId).take 50

/-- `get_popular_movies(limit)` (the `/recommendations/popular` endpoint):
the first `limit` cached ids, each resolved against `movies_df`, ids with no
catalog row silently skipped. -/
def get_popular_movies (ctx : RecCtx) (limit : ℕ) : List Movie :=
  (ctx.popular_movie_ids.take limit).filterMap fun mid =>
    (ctx.movies_df.find? fun mv => decide (mv.movieId = mid)).map fun r =>
      ⟨r.movieId, r.title, r.genres⟩

/-- A concrete deterministic random stream, standing in for
`np.random.default_rng(42)` in concrete instantiations. -/
def rng0 : Rng := ⟨fun _ => 0, fun _ n => List.range n⟩

/-- A concrete module state for instantiating the content-similarity
theorems: two movies with distinct genre vectors, the first one's similarity
to itself strictly dominating. -/
def ctxW : RecCtx :=
  ⟨[⟨1, "A", "Action Comedy"⟩, ⟨2, "B", "Drama"⟩], [[3/5, 4/5], [1, 0]], [], none⟩

/-! ## Theorems -/

/-- A concrete training state used for instantiating theorems about
`sgdStep`. -/
def ts0 : TrainState := ⟨[0], [0], [[1]], [[2]]⟩

theorem getD_set_self {α : Type} (l : List α) (n : ℕ) (a d : α) (h : n < l.length) :
    (l.set n a).getD n d = a := by
  simp [List.getD_eq_getElem?_getD, List.getElem?_set, h]

/-- In a `Pairwise R` list, every element is the last one or is `R`-related
to the last one. -/
theorem pairwise_rel_getLast {α : Type} {R : α → α → Prop} :
    ∀ (l : List α), l.Pairwise R → ∀ (h : l ≠ []) (x : α), x ∈ l →
      x = l.getLast h ∨ R x (l.getLast h)
  | [], _, h, _, _ => absurd rfl h
  | [a], hp, _, x, hx => by
      simp only [List.mem_singleton] at hx
      exact Or.inl (by simp [hx, List.getLast])
  | a :: b :: t, hp, h, x, hx => by
      have hp' : (b :: t).Pairwise R := hp.of_cons
      have hlast : (a :: b :: t).getLast h = (b :: t).getLast (by simp) := by
        simp [List.getLast]
      rcases List.mem_cons.mp hx with rfl | hx'
      · right
        rw [hlast]
        have hmem : (b :: t).getLast (by simp) ∈ b :: t := List.getLast_mem _
        exact (List.pairwise_cons.mp hp).1 _ hmem
      · rw [hlast]
        exact pairwise_rel_getLast (b :: t) hp' (by simp) x hx'

/-- In a list without duplicates, `[a, b]` and `[b, a]` cannot both be
sublists. -/
theorem not_sublist_both {α : Type} :
    ∀ {l : List α}, l.Nodup → ∀ {a b : α}, List.Sublist [a, b] l → List.Sublist [b, a] l → False
  | [], _, a, b, h1, _ => by simp at h1
  | x :: t, hnd, a, b, h1, h2 => by
      have hx : x ∉ t := (List.nodup_cons.mp hnd).1
      have hnd' : t.Nodup := (List.nodup_cons.mp hnd).2
      cases h1 with
      | cons _ h1' =>
        cases h2 with
        | cons _ h2' => exact not_sublist_both hnd' h1' h2'
        | cons₂ _ h2' => exact hx (List.Sublist.mem (by simp) h1')
      | cons₂ _ h1' =>
        cases h2 with
        | cons _ h2' => exact hx (List.Sublist.mem (by simp) h2')
        | cons₂ _ h2' => exact hx (List.Sublist.mem (by simp) h1')

/-- C4: on an empty rating history, `get_recommendations` raises an explicit
HTTP 400 "insufficient signal" error — a raised exception, not a silently
returned empty or fallback list — and produces no recommendation list. -/
theorem c4_empty_history_raises (ctx : RecCtx) (user_id : ℤ) :
    get_recommendations ctx user_id [] =
      .error (.http ⟨400, "No ratings found. Please rate some movies first (cold start)."⟩) := rfl

/-- C10: `predict` on a never-fitted model never raises: the id maps are
empty, so the unknown-id branch returns the initial `global_mean` of `0.0`
without touching the still-`None` bias/factor arrays — and `0.0` lies outside
the `[0.5, 5.0]` range promised for trained models. -/
theorem c10_predict_unfitted (n_factors n_epochs : ℕ) (lr reg : ℚ)
    (user_id item_id : ℤ) :
    (SVDModel.init n_factors n_epochs lr reg).predict user_id item_id = .ok (.val 0) ∧
      ¬ (1/2 ≤ (0 : ℚ) ∧ (0 : ℚ) ≤ 5) :=
  ⟨rfl, by norm_num⟩

/-- C6: training is deterministic — two `fit` runs over identical inputs with
the same seeded random generator (the code hard-codes `default_rng(42)`, here
the generator is any fixed pure stream) produce identical `global_mean`,
biases, factor matrices, id maps, and per-epoch shuffle orders. -/
theorem c6_fit_deterministic (m₁ m₂ : SVDModel) (rng₁ rng₂ : Rng)
    (u₁ u₂ i₁ i₂ : List ℤ) (r₁ r₂ : List ℚ)
    (hm : m₁ = m₂) (hrng : rng₁ = rng₂) (hu : u₁ = u₂) (hi : i₁ = i₂) (hr : r₁ = r₂) :
    (m₁.fit rng₁ u₁ i₁ r₁).1.global_mean = (m₂.fit rng₂ u₂ i₂ r₂).1.global_mean ∧
    (m₁.fit rng₁ u₁ i₁ r₁).1.user_bias = (m₂.fit rng₂ u₂ i₂ r₂).1.user_bias ∧
    (m₁.fit rng₁ u₁ i₁ r₁).1.item_bias = (m₂.fit rng₂ u₂ i₂ r₂).1.item_bias ∧
    (m₁.fit rng₁ u₁ i₁ r₁).1.user_factors = (m₂.fit rng₂ u₂ i₂ r₂).1.user_factors ∧
    (m₁.fit rng₁ u₁ i₁ r₁).1.item_factors = (m₂.fit rng₂ u₂ i₂ r₂).1.item_factors ∧
    ∀ e : ℕ, rng₁.shuffles e r₁.length = rng₂.shuffles e r₂.length := by
  subst hm; subst hrng; subst hu; subst hi; subst hr
  exact ⟨rfl, rfl, rfl, rfl, rfl, fun _ => rfl⟩

/-- Witness for C6 at a concrete input. -/
theorem c6_fit_deterministic_witness :
    (SVDModel.init 2 1 1 1 = SVDModel.init 2 1 1 1) ∧
    ((SVDModel.init 2 1 1 1).fit rng0 [1] [7] [4]).1.global_mean =
      ((SVDModel.init 2 1 1 1).fit rng0 [1] [7] [4]).1.global_mean :=
  ⟨rfl, (c6_fit_deterministic (SVDModel.init 2 1 1 1) (SVDModel.init 2 1 1 1) rng0 rng0
    [1] [1] [7] [7] [4] [4] rfl rfl rfl rfl rfl).1⟩

/-- C8 (code behaviour at the failing input): calling `fit` with an empty
triple set does fail — the first epoch's RMSE line raises
`ZeroDivisionError` — but only after the model state has already been
mutated: the id maps are assigned, `global_mean` becomes NaN (`np.mean` of an
empty array), and the bias/factor arrays change from `None` to empty arrays.
The claimed "reject before any state change" does not happen. -/
theorem c8_fit_empty_mutates_before_raising :
    ((SVDModel.init 50 20 (5/1000) (2/100)).fit rng0 [] [] []).2 = some .zeroDivisionError ∧
    ((SVDModel.init 50 20 (5/1000) (2/100)).fit rng0 [] [] []).1.global_mean = .nan ∧
    ((SVDModel.init 50 20 (5/1000) (2/100)).fit rng0 [] [] []).1.user_bias = some [] ∧
    ((SVDModel.init 50 20 (5/1000) (2/100)).fit rng0 [] [] []).1.user_factors = some [] ∧
    (SVDModel.init 50 20 (5/1000) (2/100)).global_mean = .val 0 ∧
    (SVDModel.init 50 20 (5/1000) (2/100)).user_bias = none ∧
    (SVDModel.init 50 20 (5/1000) (2/100)).user_factors = none := by
  refine ⟨rfl, rfl, by decide, by decide, rfl, rfl, rfl⟩

/-- C7: in each SGD step, the update written to `user_factors[u]` reads the
pre-update value of `item_factors[i]`, and the update written to
`item_factors[i]` reads (through the saved copy `uf`) the pre-update value of
`user_factors[u]`: both post-step rows equal the update formula expressed
purely in pre-step values. -/
theorem c7_sgdStep_uses_pre_update (lr reg gm : ℚ) (s : TrainState) (u i : ℕ) (r : ℚ)
    (hu : u < s.user_factors.length) (hi : i < s.item_factors.length) :
    (sgdStep lr reg gm s u i r).user_factors.getD u [] =
      vAdd (s.user_factors.getD u [])
        (vSmul lr (vSub
          (vSmul (r - (gm + s.user_bias.getD u 0 + s.item_bias.getD i 0 +
            dotQ (s.user_factors.getD u []) (s.item_factors.getD i [])))
            (s.item_factors.getD i []))
          (vSmul reg (s.user_factors.getD u [])))) ∧
    (sgdStep lr reg gm s u i r).item_factors.getD i [] =
      vAdd (s.item_factors.getD i [])
        (vSmul lr (vSub
          (vSmul (r - (gm + s.user_bias.getD u 0 + s.item_bias.getD i 0 +
            dotQ (s.user_factors.getD u []) (s.item_factors.getD i [])))
            (s.user_factors.getD u []))
          (vSmul reg (s.item_factors.getD i [])))) := by
  constructor
  · simp only [sgdStep]
    rw [getD_set_self _ _ _ _ (by simpa using hu)]
  · simp only [sgdStep]
    rw [getD_set_self _ _ _ _ (by simpa using hi)]

/-- Witness for C7 at a concrete state. -/
theorem c7_sgdStep_uses_pre_update_witness :
    (0 < ts0.user_factors.length ∧ 0 < ts0.item_factors.length) ∧
    ((sgdStep 1 0 0 ts0 0 0 1).user_factors.getD 0 [] =
      vAdd (ts0.user_factors.getD 0 [])
        (vSmul 1 (vSub
          (vSmul (1 - (0 + ts0.user_bias.getD 0 0 + ts0.item_bias.getD 0 0 +
            dotQ (ts0.user_factors.getD 0 []) (ts0.item_factors.getD 0 [])))
            (ts0.item_factors.getD 0 []))
          (vSmul 0 (ts0.user_factors.getD 0 [])))) ∧
    (sgdStep 1 0 0 ts0 0 0 1).item_factors.getD 0 [] =
      vAdd (ts0.item_factors.getD 0 [])
        (vSmul 1 (vSub
          (vSmul (1 - (0 + ts0.user_bias.getD 0 0 + ts0.item_bias.getD 0 0 +
            dotQ (ts0.user_factors.getD 0 []) (ts0.item_factors.getD 0 [])))
            (ts0.user_factors.getD 0 []))
          (vSmul 0 (ts0.item_factors.getD 0 []))))) :=
  ⟨⟨by decide, by decide⟩, c7_sgdStep_uses_pre_update 1 0 0 ts0 0 0 1 (by decide) (by decide)⟩

/-- Every prediction produced by `_predict_svd_ratings` carries one of the
requested movie ids. -/
theorem predict_svd_ratings_movieId_mem {ctx : RecCtx} {user_id : ℤ} :
    ∀ {mids : List ℤ} {preds : List Prediction},
      predict_svd_ratings ctx user_id mids = .ok preds →
      ∀ p ∈ preds, p.movieId ∈ mids
  | [], preds, h => by
      rw [predict_svd_ratings] at h
      cases h
      intro p hp
      simp at hp
  | mid :: rest, preds, h => by
      rw [predict_svd_ratings] at h
      intro p hp
      split at h
      · exact List.mem_cons_of_mem _ (predict_svd_ratings_movieId_mem h p hp)
      · split at h
        · exact absurd h (by simp)
        · split at h
          · exact absurd h (by simp)
          · cases h
            rcases List.mem_cons.mp hp with rfl | hp'
            · exact List.mem_cons_self _ _
            · exact List.mem_cons_of_mem _
                (predict_svd_ratings_movieId_mem (by assumption) p hp')

/-- Anatomy of a successful `get_recommendations` call. -/
theorem get_recommendations_ok {ctx : RecCtx} {user_id : ℤ} {urs : List UserRating}
    {res : RecResult} (hok : get_recommendations ctx user_id urs = .ok res) :
    urs ≠ [] ∧
    ∃ preds : List Prediction,
      predict_svd_ratings ctx user_id (candidate_ids ctx urs) = .ok preds ∧
      res = ⟨user_id, seedId urs,
        (List.insertionSort
          (fun a b => NFloat.le b.predicted_rating a.predicted_rating = true) preds).take 10⟩ := by
  rw [get_recommendations] at hok
  by_cases he : urs.isEmpty
  · rw [if_pos he] at hok
    exact absurd hok (by simp)
  · rw [if_neg he] at hok
    refine ⟨by simpa [List.isEmpty_iff] using he, ?_⟩
    split at hok
    · exact absurd hok (by simp)
    · cases hok
      exact ⟨_, by assumption, rfl⟩

/-- C2: a successful recommendation response never contains a movie the user
has already rated, and never contains more than 10 entries. -/
theorem c2_recommend_filters_history (ctx : RecCtx) (user_id : ℤ)
    (urs : List UserRating) (hne : urs ≠ []) (res : RecResult)
    (hok : get_recommendations ctx user_id urs = .ok res) :
    res.recommendations.length ≤ 10 ∧
    ∀ p ∈ res.recommendations, ∀ r ∈ urs, p.movieId ≠ r.movie_id := by
  obtain ⟨-, preds, hpreds, rfl⟩ := get_recommendations_ok hok
  constructor
  · simpa using List.length_take_le 10 _
  · intro p hp r hr
    have hmem : p ∈ preds := by
      have h1 : p ∈ List.insertionSort
          (fun a b => NFloat.le b.predicted_rating a.predicted_rating = true) preds :=
        List.Sublist.mem hp (List.take_sublist _ _)
      exact (List.perm_insertionSort _ _).mem_iff.mp h1
    have hcand : p.movieId ∈ candidate_ids ctx urs :=
      predict_svd_ratings_movieId_mem hpreds p hmem
    rw [candidate_ids] at hcand
    have hnot : p.movieId ∉ urs.map fun r => r.movie_id := by
      have := (List.mem_filter.mp hcand).2
      simpa using this
    intro hEq
    exact hnot (List.mem_map.mpr ⟨r, hr, hEq.symm⟩)

/-- Witness for C2 at a concrete input. -/
theorem c2_recommend_filters_history_witness :
    (([⟨1, (3 : ℚ)⟩, ⟨2, 2⟩] : List UserRating) ≠ [] ∧
      get_recommendations ⟨[⟨1, "A", "Action"⟩, ⟨2, "B", "Action"⟩], [[1], [1]], [], none⟩ 7
        [⟨1, 3⟩, ⟨2, 2⟩] = .ok ⟨7, 2, []⟩) ∧
    ((⟨7, 2, []⟩ : RecResult).recommendations.length ≤ 10 ∧
      ∀ p ∈ (⟨7, 2, []⟩ : RecResult).recommendations,
        ∀ r ∈ ([⟨1, 3⟩, ⟨2, 2⟩] : List UserRating), p.movieId ≠ r.movie_id) :=
  ⟨⟨by decide, by decide⟩,
    c2_recommend_filters_history ⟨[⟨1, "A", "Action"⟩, ⟨2, "B", "Action"⟩], [[1], [1]], [], none⟩ 7
      [⟨1, 3⟩, ⟨2, 2⟩] (by decide) ⟨7, 2, []⟩ (by decide)⟩

/-- C3: seed selection.  If some event has rating ≥ 4.0, the seed is the last
element of the ≥ 4.0 filtered subsequence in the supplied order; otherwise it
is the last element of the history sorted descending by rating — an item of
minimal rating in the whole history. -/
theorem c3_seed_selection (ctx : RecCtx) (user_id : ℤ) (urs : List UserRating)
    (hne : urs ≠ []) (res : RecResult)
    (hok : get_recommendations ctx user_id urs = .ok res) :
    (∀ hf : (urs.filter fun r => decide (4 ≤ r.rating)) ≠ [],
      res.seed_movie_id = ((urs.filter fun r => decide (4 ≤ r.rating)).getLast hf).movie_id) ∧
    ((urs.filter fun r => decide (4 ≤ r.rating)) = [] →
      ∀ hs : List.insertionSort (fun a b : UserRating => b.rating ≤ a.rating) urs ≠ [],
        res.seed_movie_id =
          ((List.insertionSort (fun a b : UserRating => b.rating ≤ a.rating) urs).getLast
            hs).movie_id ∧
        ∃ rm ∈ urs, rm.movie_id = res.seed_movie_id ∧ ∀ rx ∈ urs, rm.rating ≤ rx.rating) := by
  obtain ⟨-, preds, hpreds, rfl⟩ := get_recommendations_ok hok
  constructor
  · intro hf
    show seedId urs = _
    rw [seedId]
    have hf' : (urs.filter fun r => decide (4 ≤ r.rating)).isEmpty = false := by
      simpa [List.isEmpty_iff] using hf
    simp only [hf', Bool.false_eq_true, if_false, List.getLast?_eq_getLast _ hf,
      Option.map_some', Option.getD_some]
  · intro hfe hs
    show seedId urs = _ ∧ _
    have hsl : (seedId urs =
        ((List.insertionSort (fun a b : UserRating => b.rating ≤ a.rating) urs).getLast
          hs).movie_id) := by
      rw [seedId]
      have hf' : (urs.filter fun r => decide (4 ≤ r.rating)).isEmpty = true := by
        simp [hfe]
      simp only [hf', if_true, List.getLast?_eq_getLast _ hs, Option.map_some', Option.getD_some]
    refine ⟨hsl, ?_⟩
    haveI : IsTotal UserRating (fun a b => b.rating ≤ a.rating) :=
      ⟨fun a b => le_total b.rating a.rating⟩
    haveI : IsTrans UserRating (fun a b => b.rating ≤ a.rating) :=
      ⟨fun _ _ _ hab hbc => le_trans hbc hab⟩
    have hsorted : (List.insertionSort (fun a b : UserRating => b.rating ≤ a.rating) urs).Pairwise
        (fun a b => b.rating ≤ a.rating) :=
      List.sorted_insertionSort _ urs
    have hperm := List.perm_insertionSort (fun a b : UserRating => b.rating ≤ a.rating) urs
    set L := (List.insertionSort (fun a b : UserRating => b.rating ≤ a.rating) urs).getLast hs
      with hL
    refine ⟨L, hperm.mem_iff.mp (List.getLast_mem hs), hsl.symm, ?_⟩
    intro rx hrx
    have hrx' : rx ∈ List.insertionSort (fun a b : UserRating => b.rating ≤ a.rating) urs :=
      hperm.mem_iff.mpr hrx
    rcases pairwise_rel_getLast _ hsorted hs rx hrx' with hEq | hrel
    · rw [hEq]
    · exact hrel

/-- Witness for C3 at a concrete input (fallback branch: no rating ≥ 4.0,
seed is the lowest-rated movie 2). -/
theorem c3_seed_selection_witness :
    (([⟨1, (3 : ℚ)⟩, ⟨2, 2⟩] : List UserRating) ≠ [] ∧
      get_recommendations ⟨[⟨1, "A", "Action"⟩, ⟨2, "B", "Action"⟩], [[1], [1]], [], none⟩ 7
        [⟨1, 3⟩, ⟨2, 2⟩] = .ok ⟨7, 2, []⟩) ∧
    ((∀ hf : (([⟨1, (3 : ℚ)⟩, ⟨2, 2⟩] : List UserRating).filter
        fun r => decide (4 ≤ r.rating)) ≠ [],
      (⟨7, 2, []⟩ : RecResult).seed_movie_id =
        ((([⟨1, (3 : ℚ)⟩, ⟨2, 2⟩] : List UserRating).filter
          fun r => decide (4 ≤ r.rating)).getLast hf).movie_id) ∧
    ((([⟨1, (3 : ℚ)⟩, ⟨2, 2⟩] : List UserRating).filter fun r => decide (4 ≤ r.rating)) = [] →
      ∀ hs : List.insertionSort (fun a b : UserRating => b.rating ≤ a.rating)
          [⟨1, 3⟩, ⟨2, 2⟩] ≠ [],
        (⟨7, 2, []⟩ : RecResult).seed_movie_id =
          ((List.insertionSort (fun a b : UserRating => b.rating ≤ a.rating)
            [⟨1, 3⟩, ⟨2, 2⟩]).getLast hs).movie_id ∧
        ∃ rm ∈ ([⟨1, (3 : ℚ)⟩, ⟨2, 2⟩] : List UserRating),
          rm.movie_id = (⟨7, 2, []⟩ : RecResult).seed_movie_id ∧
          ∀ rx ∈ ([⟨1, (3 : ℚ)⟩, ⟨2, 2⟩] : List UserRating), rm.rating ≤ rx.rating)) :=
  ⟨⟨by decide, by decide⟩,
    c3_seed_selection ⟨[⟨1, "A", "Action"⟩, ⟨2, "B", "Action"⟩], [[1], [1]], [], none⟩ 7
      [⟨1, 3⟩, ⟨2, 2⟩] (by decide) ⟨7, 2, []⟩ (by decide)⟩

theorem sgdStep_lengths (lr reg gm : ℚ) (s : TrainState) (u i : ℕ) (r : ℚ) :
    (sgdStep lr reg gm s u i r).user_bias.length = s.user_bias.length ∧
    (sgdStep lr reg gm s u i r).item_bias.length = s.item_bias.length ∧
    (sgdStep lr reg gm s u i r).user_factors.length = s.user_factors.length ∧
    (sgdStep lr reg gm s u i r).item_factors.length = s.item_factors.length := by
  simp [sgdStep]

theorem runEpoch_lengths (lr reg gm : ℚ) (uIdx iIdx : List ℕ) (ratings : List ℚ) :
    ∀ (order : List ℕ) (s : TrainState),
      (runEpoch lr reg gm uIdx iIdx ratings order s).user_bias.length = s.user_bias.length ∧
      (runEpoch lr reg gm uIdx iIdx ratings order s).item_bias.length = s.item_bias.length ∧
      (runEpoch lr reg gm uIdx iIdx ratings order s).user_factors.length =
        s.user_factors.length ∧
      (runEpoch lr reg gm uIdx iIdx ratings order s).item_factors.length =
        s.item_factors.length
  | [], s => ⟨rfl, rfl, rfl, rfl⟩
  | o :: os, s => by
      have h1 := sgdStep_lengths lr reg gm s (uIdx.getD o 0) (iIdx.getD o 0) (ratings.getD o 0)
      have h2 := runEpoch_lengths lr reg gm uIdx iIdx ratings os
        (sgdStep lr reg gm s (uIdx.getD o 0) (iIdx.getD o 0) (ratings.getD o 0))
      rw [runEpoch] at h2 ⊢
      rw [List.foldl_cons]
      exact ⟨h2.1.trans h1.1, h2.2.1.trans h1.2.1, h2.2.2.1.trans h1.2.2.1,
        h2.2.2.2.trans h1.2.2.2⟩

theorem epochs_lengths (f : TrainState → ℕ → TrainState)
    (hf : ∀ s e, (f s e).user_bias.length = s.user_bias.length ∧
      (f s e).item_bias.length = s.item_bias.length ∧
      (f s e).user_factors.length = s.user_factors.length ∧
      (f s e).item_factors.length = s.item_factors.length) :
    ∀ (es : List ℕ) (s : TrainState),
      (es.foldl f s).user_bias.length = s.user_bias.length ∧
      (es.foldl f s).item_bias.length = s.item_bias.length ∧
      (es.foldl f s).user_factors.length = s.user_factors.length ∧
      (es.foldl f s).item_factors.length = s.item_factors.length
  | [], s => ⟨rfl, rfl, rfl, rfl⟩
  | e :: es, s => by
      have h1 := hf s e
      have h2 := epochs_lengths f hf es (f s e)
      rw [List.foldl_cons]
      exact ⟨h2.1.trans h1.1, h2.2.1.trans h1.2.1, h2.2.2.1.trans h1.2.2.1,
        h2.2.2.2.trans h1.2.2.2⟩

theorem lookupIdx_enumIdx_lt :
    ∀ (l : List ℤ) (s : ℕ) (k : ℤ) (v : ℕ),
      lookupIdx (enumIdx l s) k = some v → v < s + l.length
  | [], s, k, v, h => by simp [enumIdx, lookupIdx] at h
  | x :: xs, s, k, v, h => by
      rw [enumIdx, lookupIdx] at h
      by_cases hk : k = x
      · rw [if_pos hk] at h
        cases h
        simp only [List.length_cons]
        omega
      · rw [if_neg hk] at h
        have := lookupIdx_enumIdx_lt xs (s + 1) k v h
        simp only [List.length_cons]
        omega

theorem mean_bounds {rs : List ℚ} (hne : rs ≠ [])
    (h : ∀ r ∈ rs, 1/2 ≤ r ∧ r ≤ 5) :
    1/2 ≤ rs.sum / rs.length ∧ rs.sum / rs.length ≤ 5 := by
  have hlen : 0 < rs.length := List.length_pos.mpr hne
  have hlenQ : (0 : ℚ) < rs.length := by exact_mod_cast hlen
  have hupper : rs.sum ≤ rs.length • (5 : ℚ) :=
    List.sum_le_card_nsmul rs 5 fun x hx => (h x hx).2
  have hlower : rs.length • (1/2 : ℚ) ≤ rs.sum :=
    List.card_nsmul_le_sum rs (1/2) fun x hx => (h x hx).1
  rw [nsmul_eq_mul] at hupper hlower
  constructor
  · rw [le_div_iff hlenQ]
    linarith
  · rw [div_le_iff hlenQ]
    linarith

/-- The shape of the model returned by a successful `fit` on a non-empty
ratings list: global mean set to the arithmetic mean, id maps enumerating the
sorted distinct ids, bias and factor arrays of matching lengths. -/
theorem fit_spec (m : SVDModel) (rng : Rng) (uids iids : List ℤ) (rs : List ℚ)
    (hne : rs ≠ []) :
    ∃ bu bi P Q,
      (m.fit rng uids iids rs).2 = none ∧
      (m.fit rng uids iids rs).1.global_mean = .val (rs.sum / rs.length) ∧
      (m.fit rng uids iids rs).1.user_map = enumIdx (uniqueSorted uids) 0 ∧
      (m.fit rng uids iids rs).1.item_map = enumIdx (uniqueSorted iids) 0 ∧
      (m.fit rng uids iids rs).1.user_bias = some bu ∧
      bu.length = (uniqueSorted uids).length ∧
      (m.fit rng uids iids rs).1.item_bias = some bi ∧
      bi.length = (uniqueSorted iids).length ∧
      (m.fit rng uids iids rs).1.user_factors = some P ∧
      P.length = (uniqueSorted uids).length ∧
      (m.fit rng uids iids rs).1.item_factors = some Q ∧
      Q.length = (uniqueSorted iids).length := by
  have hcond : ¬ (rs.length = 0 ∧ m.n_epochs ≠ 0) := by
    intro hc
    exact hne (List.length_eq_zero.mp hc.1)
  rw [SVDModel.fit]
  simp only [hcond, if_false]
  have hEmpty : rs.isEmpty = false := by
    simpa [List.isEmpty_iff] using hne
  have hlen := epochs_lengths _
    (fun s e => runEpoch_lengths m.lr m.reg (rs.sum / rs.length)
      (uids.map fun u => (lookupIdx (enumIdx (uniqueSorted uids) 0) u).getD 0)
      (iids.map fun i => (lookupIdx (enumIdx (uniqueSorted iids) 0) i).getD 0) rs
      (rng.shuffles e rs.length) s)
    (List.range m.n_epochs)
    ⟨List.replicate (uniqueSorted uids).length 0,
     List.replicate (uniqueSorted iids).length 0,
     initFactors rng.normals 0 (uniqueSorted uids).length m.n_factors,
     initFactors rng.normals ((uniqueSorted uids).length * m.n_factors)
       (uniqueSorted iids).length m.n_factors⟩
  refine ⟨_, _, _, _, trivial, ?_, trivial, trivial, rfl, ?_, rfl, ?_, rfl, ?_, rfl, ?_⟩
  · simp [hEmpty]
  · exact hlen.1.trans (by simp)
  · exact hlen.2.1.trans (by simp)
  · exact hlen.2.2.1.trans (by simp [initFactors])
  · exact hlen.2.2.2.trans (by simp [initFactors])

/-- C1: after training on a non-empty list of ratings all within
`[0.5, 5.0]`, `predict(user_id, item_id)` always returns (without raising) a
value in `[0.5, 5.0]`; if either id is absent from the trained id maps the
value is the trained `global_mean` (the arithmetic mean of the training
ratings), and otherwise it is
`global_mean + user_bias[u] + item_bias[i] + dot(user_factors[u],
item_factors[i])` clipped to `[0.5, 5.0]`. -/
theorem c1_predict_spec (m0 : SVDModel) (rng : Rng) (uids iids : List ℤ) (rs : List ℚ)
    (hne : rs ≠ []) (hrange : ∀ r ∈ rs, 1/2 ≤ r ∧ r ≤ 5) (user_id item_id : ℤ) :
    ∃ q : ℚ,
      (m0.fit rng uids iids rs).1.predict user_id item_id = .ok (.val q) ∧
      1/2 ≤ q ∧ q ≤ 5 ∧
      (m0.fit rng uids iids rs).1.global_mean = .val (rs.sum / rs.length) ∧
      ((lookupIdx (m0.fit rng uids iids rs).1.user_map user_id = none ∨
        lookupIdx (m0.fit rng uids iids rs).1.item_map item_id = none) →
        q = rs.sum / rs.length) ∧
      (∀ u i, lookupIdx (m0.fit rng uids iids rs).1.user_map user_id = some u →
        lookupIdx (m0.fit rng uids iids rs).1.item_map item_id = some i →
        ∃ bu bi P Q,
          (m0.fit rng uids iids rs).1.user_bias = some bu ∧
          (m0.fit rng uids iids rs).1.item_bias = some bi ∧
          (m0.fit rng uids iids rs).1.user_factors = some P ∧
          (m0.fit rng uids iids rs).1.item_factors = some Q ∧
          q = min (max (rs.sum / rs.length + bu.getD u 0 + bi.getD i 0 +
            dotQ (P.getD u []) (Q.getD i [])) (1/2)) 5) := by
  obtain ⟨bu, bi, P, Q, h2, hgm, hum, him, hub, hbul, hib, hbil, huf, hPl, hif, hQl⟩ :=
    fit_spec m0 rng uids iids rs hne
  obtain ⟨hmlo, hmhi⟩ := mean_bounds hne hrange
  rcases hu : lookupIdx (m0.fit rng uids iids rs).1.user_map user_id with _ | u
  · refine ⟨rs.sum / rs.length, ?_, hmlo, hmhi, hgm, fun _ => rfl, ?_⟩
    · simp only [SVDModel.predict, hu, hgm]
    · intro u i h1 h2'
      cases h1
  · rcases hi : lookupIdx (m0.fit rng uids iids rs).1.item_map item_id with _ | i
    · refine ⟨rs.sum / rs.length, ?_, hmlo, hmhi, hgm, fun _ => rfl, ?_⟩
      · simp only [SVDModel.predict, hu, hi, hgm]
      · intro u' i' h1 h2'
        cases h2'
    · have hult : u < (uniqueSorted uids).length := by
        rw [hum] at hu
        simpa using lookupIdx_enumIdx_lt _ 0 _ _ hu
      have hilt : i < (uniqueSorted iids).length := by
        rw [him] at hi
        simpa using lookupIdx_enumIdx_lt _ 0 _ _ hi
      have hcond : u < bu.length ∧ i < bi.length ∧ u < P.length ∧ i < Q.length := by
        rw [hbul, hbil, hPl, hQl]
        exact ⟨hult, hilt, hult, hilt⟩
      refine ⟨min (max (rs.sum / rs.length + bu.getD u 0 + bi.getD i 0 +
          dotQ (P.getD u []) (Q.getD i [])) (1/2)) 5, ?_, ?_, min_le_right _ _, hgm, ?_, ?_⟩
      · simp only [SVDModel.predict, hu, hi, hub, hib, huf, hif, if_pos hcond, hgm,
          NFloat.add, NFloat.clip]
      · exact le_min (le_max_right _ _) (by norm_num)
      · intro hcontra
        rcases hcontra with h | h
        · cases h
        · cases h
      · intro u' i' h1 h2'
        cases h1
        cases h2'
        exact ⟨bu, bi, P, Q, hub, hib, huf, hif, rfl⟩

/-- Witness for C1 at a concrete training run. -/
theorem c1_predict_spec_witness :
    (([(4 : ℚ)] : List ℚ) ≠ [] ∧ ∀ r ∈ ([(4 : ℚ)] : List ℚ), 1/2 ≤ r ∧ r ≤ 5) ∧
    ∃ q : ℚ,
      ((SVDModel.init 1 1 1 1).fit rng0 [1] [10] [4]).1.predict 1 10 = .ok (.val q) ∧
      1/2 ≤ q ∧ q ≤ 5 ∧
      ((SVDModel.init 1 1 1 1).fit rng0 [1] [10] [4]).1.global_mean =
        .val (([(4 : ℚ)] : List ℚ).sum / ([(4 : ℚ)] : List ℚ).length) ∧
      ((lookupIdx ((SVDModel.init 1 1 1 1).fit rng0 [1] [10] [4]).1.user_map 1 = none ∨
        lookupIdx ((SVDModel.init 1 1 1 1).fit rng0 [1] [10] [4]).1.item_map 10 = none) →
        q = ([(4 : ℚ)] : List ℚ).sum / ([(4 : ℚ)] : List ℚ).length) ∧
      (∀ u i, lookupIdx ((SVDModel.init 1 1 1 1).fit rng0 [1] [10] [4]).1.user_map 1 = some u →
        lookupIdx ((SVDModel.init 1 1 1 1).fit rng0 [1] [10] [4]).1.item_map 10 = some i →
        ∃ bu bi P Q,
          ((SVDModel.init 1 1 1 1).fit rng0 [1] [10] [4]).1.user_bias = some bu ∧
          ((SVDModel.init 1 1 1 1).fit rng0 [1] [10] [4]).1.item_bias = some bi ∧
          ((SVDModel.init 1 1 1 1).fit rng0 [1] [10] [4]).1.user_factors = some P ∧
          ((SVDModel.init 1 1 1 1).fit rng0 [1] [10] [4]).1.item_factors = some Q ∧
          q = min (max (([(4 : ℚ)] : List ℚ).sum / ([(4 : ℚ)] : List ℚ).length +
            bu.getD u 0 + bi.getD i 0 +
            dotQ (P.getD u []) (Q.getD i [])) (1/2)) 5) :=
  ⟨⟨by decide, by decide⟩,
    c1_predict_spec (SVDModel.init 1 1 1 1) rng0 [1] [10] [4] (by decide) (by decide) 1 10⟩

/-- Two distinct members of a list occur as a two-element sublist in one
order or the other. -/
theorem pair_sublist_of_mem {α : Type} :
    ∀ {l : List α} {x y : α}, x ∈ l → y ∈ l → x ≠ y →
      List.Sublist [x, y] l ∨ List.Sublist [y, x] l
  | [], x, y, hx, _, _ => absurd hx (by simp)
  | h :: t, x, y, hx, hy, hxy => by
      rcases List.mem_cons.mp hx with rfl | hx'
      · rcases List.mem_cons.mp hy with rfl | hy'
        · exact absurd rfl hxy
        · exact Or.inl (List.Sublist.cons₂ _ (List.singleton_sublist.mpr hy'))
      · rcases List.mem_cons.mp hy with rfl | hy'
        · exact Or.inr (List.Sublist.cons₂ _ (List.singleton_sublist.mpr hx'))
        · rcases pair_sublist_of_mem hx' hy' hxy with hs | hs
          · exact Or.inl (hs.cons _)
          · exact Or.inr (hs.cons _)

/-- The elements at two positions `i < j` form a two-element sublist. -/
theorem pair_sublist_getElem {α : Type} :
    ∀ (l : List α) (i j : ℕ) (hij : i < j) (hj : j < l.length),
      List.Sublist [l.get ⟨i, lt_trans hij hj⟩, l.get ⟨j, hj⟩] l
  | x :: t, 0, j + 1, hij, hj => by
      simpa using List.Sublist.cons₂ x
        (List.singleton_sublist.mpr (List.getElem_mem (by simpa using hj)))
  | x :: t, i + 1, j + 1, hij, hj => by
      simpa using (pair_sublist_getElem t i j (by omega) (by simpa using hj)).cons x

/-- Stability of `insertionSort` on duplicate-free input: along the output,
any pair in order satisfies `r`, and on a tie (`r` in both directions) the
pair is in its original relative order `R`. -/
theorem insertionSort_pairwise_stable {α : Type} (r : α → α → Prop) [DecidableRel r]
    [IsTotal α r] [IsTrans α r] {R : α → α → Prop} {l : List α}
    (hR : l.Pairwise R) (hnd : l.Nodup) :
    (List.insertionSort r l).Pairwise fun a b => r a b ∧ (r b a → R a b) := by
  have hsorted : (List.insertionSort r l).Pairwise r := List.sorted_insertionSort r l
  have hperm := List.perm_insertionSort r l
  have hndout : (List.insertionSort r l).Nodup := hperm.nodup_iff.mpr hnd
  rw [List.pairwise_iff_getElem] at hsorted ⊢
  intro i j hi hj hij
  refine ⟨hsorted i j hi hj hij, ?_⟩
  intro hba
  set a := (List.insertionSort r l)[i] with ha
  set b := (List.insertionSort r l)[j] with hb
  have hab : a ≠ b := by
    intro hEq
    exact absurd (hndout.getElem_inj_iff.mp hEq) (by omega)
  have hamem : a ∈ l := hperm.mem_iff.mp (List.getElem_mem hi)
  have hbmem : b ∈ l := hperm.mem_iff.mp (List.getElem_mem hj)
  rcases pair_sublist_of_mem hamem hbmem hab with hs | hs
  · exact (List.pairwise_cons.mp (hR.sublist hs)).1 b (by simp)
  · exfalso
    have hout : List.Sublist [b, a] (List.insertionSort r l) :=
      List.sublist_insertionSort (by simp [hba]) hs
    have hout' : List.Sublist [a, b] (List.insertionSort r l) := by
      have := pair_sublist_getElem (List.insertionSort r l) i j hij hj
      simpa [List.get_eq_getElem, ← ha, ← hb] using this
    exact not_sublist_both hndout hout' hout

/-- The aggregation table lists movie ids in strictly ascending order. -/
theorem popularity_movieId_lt (rts : List (ℤ × ℚ)) :
    (popularity rts).Pairwise fun a b => a.movieId < b.movieId := by
  rw [popularity, List.pairwise_map]
  have h1 : (uniqueSorted (rts.map Prod.fst)).Pairwise (fun a b : ℤ => a ≤ b) :=
    List.sorted_insertionSort _ _
  have h2 : (uniqueSorted (rts.map Prod.fst)).Nodup :=
    (List.perm_insertionSort _ _).nodup_iff.mpr (List.nodup_dedup _)
  exact (h1.and h2).imp fun h => lt_of_le_of_ne h.1 h.2

/-- When every requested id is present in the catalog, the popular-movies
response resolves each id in order. -/
theorem popular_movies_map_found (movies : List Movie) :
    ∀ (mids : List ℤ), (∀ mid ∈ mids, ∃ mv ∈ movies, mv.movieId = mid) →
      ((mids.filterMap fun mid =>
          (movies.find? fun mv => decide (mv.movieId = mid)).map fun r =>
            (⟨r.movieId, r.title, r.genres⟩ : Movie)).map fun mv => mv.movieId) = mids
  | [], _ => rfl
  | mid :: rest, h => by
      obtain ⟨mv, hmv, hid⟩ := h mid (by simp)
      have hsome : (movies.find? fun mv => decide (mv.movieId = mid)).isSome := by
        rw [List.find?_isSome]
        exact ⟨mv, hmv, by simp [hid]⟩
      obtain ⟨r, hr⟩ := Option.isSome_iff_exists.mp hsome
      have hrid : r.movieId = mid := by simpa using List.find?_some hr
      rw [List.filterMap_cons]
      simp only [hr, Option.map_some', List.map_cons, hrid]
      rw [popular_movies_map_found movies rest fun m hm => h m (by simp [hm])]

/-- C9 (amended): the cached popularity list keeps only movies with at least
100 ratings, is sorted descending by mean rating with ties in the aggregated
table's ascending-movieId order, and holds at most 50 ids; a `topPopular(n)`
query resolves the `min(n, cache length)`-prefix of the cache against the
catalog — it equals that prefix whenever every cached id is present in the
catalog, but ids missing from the catalog are silently skipped. -/
theorem c9_popularity_pipeline (rts : List (ℤ × ℚ)) (ctx : RecCtx) (n : ℕ)
    (hctx : ctx.popular_movie_ids = popular_movie_ids rts) :
    (popular_movie_ids rts).length ≤ 50 ∧
    (∀ mid ∈ popular_movie_ids rts, ∃ g ∈ popularity rts, g.movieId = mid ∧ 100 ≤ g.count) ∧
    (∃ rows : List PopRow,
      rows.Perm ((popularity rts).filter fun g => decide (100 ≤ g.count)) ∧
      popular_movie_ids rts = (rows.map fun g => g.movieId).take 50 ∧
      rows.Pairwise fun a b => b.mean ≤ a.mean ∧ (a.mean = b.mean → a.movieId < b.movieId)) ∧
    ((∀ mid ∈ ctx.popular_movie_ids, ∃ mv ∈ ctx.movies_df, mv.movieId = mid) →
      (get_popular_movies ctx n).length = min n ctx.popular_movie_ids.length ∧
      (get_popular_movies ctx n).map (fun mv => mv.movieId) = ctx.popular_movie_ids.take n) := by
  haveI : IsTotal PopRow fun a b => b.mean ≤ a.mean := ⟨fun a b => le_total b.mean a.mean⟩
  haveI : IsTrans PopRow fun a b => b.mean ≤ a.mean :=
    ⟨fun _ _ _ hab hbc => le_trans hbc hab⟩
  have hfiltR : ((popularity rts).filter fun g => decide (100 ≤ g.count)).Pairwise
      fun a b => a.movieId < b.movieId :=
    (popularity_movieId_lt rts).filter _
  have hfiltnd : ((popularity rts).filter fun g => decide (100 ≤ g.count)).Nodup :=
    hfiltR.imp fun h hEq => absurd (hEq ▸ h) (lt_irrefl _)
  refine ⟨?_, ?_, ?_, ?_⟩
  · rw [popular_movie_ids]
    exact List.length_take_le 50 _
  · intro mid hmid
    rw [popular_movie_ids] at hmid
    have hmid' : mid ∈ (List.insertionSort (fun a b => b.mean ≤ a.mean)
        ((popularity rts).filter fun g => decide (100 ≤ g.count))).map fun g => g.movieId :=
      List.Sublist.mem hmid (List.take_sublist _ _)
    obtain ⟨g, hg, rfl⟩ := List.mem_map.mp hmid'
    have hg' : g ∈ (popularity rts).filter fun g => decide (100 ≤ g.count) :=
      (List.perm_insertionSort _ _).mem_iff.mp hg
    obtain ⟨hgp, hgc⟩ := List.mem_filter.mp hg'
    exact ⟨g, hgp, rfl, by simpa using hgc⟩
  · refine ⟨List.insertionSort (fun a b => b.mean ≤ a.mean)
      ((popularity rts).filter fun g => decide (100 ≤ g.count)),
      List.perm_insertionSort _ _, rfl, ?_⟩
    have := insertionSort_pairwise_stable (fun a b : PopRow => b.mean ≤ a.mean)
      hfiltR hfiltnd
    exact this.imp fun h => ⟨h.1, fun hEq => h.2 (le_of_eq hEq)⟩
  · intro hfound
    have hmap := popular_movies_map_found ctx.movies_df (ctx.popular_movie_ids.take n)
      fun mid hmid => hfound mid (List.Sublist.mem hmid (List.take_sublist _ _))
    rw [get_popular_movies]
    constructor
    · have := congrArg List.length hmap
      simpa [List.length_take] using this
    · exact hmap

/-- C9 counterexample: movie 5 has 100 ratings (mean 4.0), so the cached
list is `[5]`; with a catalog that does not contain movie 5, the query for
`n = 1` returns `[]` — not the `min(1, 1)`-length prefix of the cached list,
refuting the claim that every query returns exactly that prefix. -/
theorem c9_counterexample :
    popular_movie_ids (List.replicate 100 ((5 : ℤ), (4 : ℚ))) = [5] ∧
    get_popular_movies
      ⟨[], [], popular_movie_ids (List.replicate 100 ((5 : ℤ), (4 : ℚ))), none⟩ 1 = [] ∧
    (get_popular_movies
      ⟨[], [], popular_movie_ids (List.replicate 100 ((5 : ℤ), (4 : ℚ))), none⟩ 1).length ≠
      min 1 (popular_movie_ids (List.replicate 100 ((5 : ℤ), (4 : ℚ)))).length := by
  refine ⟨by decide, by decide, by decide⟩

/-- Witness for the amended C9 at a concrete input. -/
theorem c9_popularity_pipeline_witness :
    ((⟨[], [], [], none⟩ : RecCtx).popular_movie_ids = popular_movie_ids []) ∧
    ((popular_movie_ids []).length ≤ 50 ∧
    (∀ mid ∈ popular_movie_ids [], ∃ g ∈ popularity [], g.movieId = mid ∧ 100 ≤ g.count) ∧
    (∃ rows : List PopRow,
      rows.Perm ((popularity []).filter fun g => decide (100 ≤ g.count)) ∧
      popular_movie_ids [] = (rows.map fun g => g.movieId).take 50 ∧
      rows.Pairwise fun a b => b.mean ≤ a.mean ∧ (a.mean = b.mean → a.movieId < b.movieId)) ∧
    ((∀ mid ∈ (⟨[], [], [], none⟩ : RecCtx).popular_movie_ids,
        ∃ mv ∈ (⟨[], [], [], none⟩ : RecCtx).movies_df, mv.movieId = mid) →
      (get_popular_movies (⟨[], [], [], none⟩ : RecCtx) 0).length =
        min 0 (⟨[], [], [], none⟩ : RecCtx).popular_movie_ids.length ∧
      (get_popular_movies (⟨[], [], [], none⟩ : RecCtx) 0).map (fun mv => mv.movieId) =
        (⟨[], [], [], none⟩ : RecCtx).popular_movie_ids.take 0)) :=
  ⟨by decide, c9_popularity_pipeline [] ⟨[], [], [], none⟩ 0 (by decide)⟩

/-- The ascending argsort is a permutation of the row-index range. -/
theorem argsortAsc_perm (s : List ℚ) : (argsortAsc s).Perm (List.range s.length) :=
  List.perm_insertionSort _ _

/-- The ascending argsort is sorted by score, ties in ascending index order
(the modelled stability). -/
theorem argsortAsc_pairwise (s : List ℚ) :
    (argsortAsc s).Pairwise fun a b =>
      s.getD a 0 ≤ s.getD b 0 ∧ (s.getD b 0 ≤ s.getD a 0 → a < b) := by
  haveI : IsTotal ℕ fun a b => s.getD a 0 ≤ s.getD b 0 := ⟨fun a b => le_total _ _⟩
  haveI : IsTrans ℕ fun a b => s.getD a 0 ≤ s.getD b 0 := ⟨fun _ _ _ => le_trans⟩
  exact insertionSort_pairwise_stable _ (List.pairwise_lt_range _) (List.nodup_range _)

/-- When the score at `idx` strictly dominates every other score, the
ascending argsort ends with `idx`. -/
theorem argsortAsc_getLast_of_strict_max {s : List ℚ} {idx : ℕ} (hidx : idx < s.length)
    (hstrict : ∀ j, j < s.length → j ≠ idx → s.getD j 0 < s.getD idx 0)
    (h : argsortAsc s ≠ []) :
    (argsortAsc s).getLast h = idx := by
  have hperm := argsortAsc_perm s
  have hLmem : (argsortAsc s).getLast h ∈ argsortAsc s := List.getLast_mem h
  have hLlt : (argsortAsc s).getLast h < s.length := by
    simpa using hperm.mem_iff.mp hLmem
  have hidxmem : idx ∈ argsortAsc s := hperm.mem_iff.mpr (by simpa using hidx)
  by_contra hne
  have hlt : s.getD ((argsortAsc s).getLast h) 0 < s.getD idx 0 :=
    hstrict _ hLlt hne
  have hsorted : (argsortAsc s).Pairwise fun a b => s.getD a 0 ≤ s.getD b 0 :=
    (argsortAsc_pairwise s).imp fun hp => hp.1
  rcases pairwise_rel_getLast _ hsorted h idx hidxmem with hEq | hrel
  · exact hne hEq.symm
  · exact absurd (lt_of_le_of_lt hrel hlt) (lt_irrefl _)

/-- C5 (amended): `topSimilar(item_id, n)` returns at most `n` ids; an id
absent from the catalog yields `[]` without raising.  The selected row
positions follow descending cosine similarity with ties broken by *reverse*
catalog row order (the code reverses an ascending argsort), and every
considered-but-unselected position scores no higher than any selected one.
Because the code drops only the first element of the reversed order — on the
assumption that it is the query row — the query item is guaranteed excluded
only when its similarity strictly exceeds every other row's; when another
row ties the maximum the query item itself can be returned. -/
theorem c5_top_similar (ctx : RecCtx) (movie_id : ℤ) (n : ℕ)
    (hlen : ctx.tfidf_matrix.length = ctx.movies_df.length)
    (hnd : (ctx.movies_df.map fun mv => mv.movieId).Nodup) :
    (ctx.movies_df.findIdx? (fun mv => decide (mv.movieId = movie_id)) = none →
      get_content_similar_movies ctx movie_id n = []) ∧
    (get_content_similar_movies ctx movie_id n).length ≤ n ∧
    (∀ idx, ctx.movies_df.findIdx? (fun mv => decide (mv.movieId = movie_id)) = some idx →
      ((similarIndices ctx idx n).Pairwise fun a b =>
        (sim_scores ctx idx).getD b 0 ≤ (sim_scores ctx idx).getD a 0 ∧
        ((sim_scores ctx idx).getD a 0 ≤ (sim_scores ctx idx).getD b 0 → b < a)) ∧
      (∀ a ∈ similarIndices ctx idx n,
        ∀ b ∈ ((argsortAsc (sim_scores ctx idx)).reverse).drop 1,
          b ∉ similarIndices ctx idx n →
          (sim_scores ctx idx).getD b 0 ≤ (sim_scores ctx idx).getD a 0) ∧
      ((∀ j, j < (sim_scores ctx idx).length → j ≠ idx →
          (sim_scores ctx idx).getD j 0 < (sim_scores ctx idx).getD idx 0) →
        movie_id ∉ get_content_similar_movies ctx movie_id n)) := by
  have hrevPairwise : ∀ idx, ((argsortAsc (sim_scores ctx idx)).reverse).Pairwise
      fun a b => (sim_scores ctx idx).getD b 0 ≤ (sim_scores ctx idx).getD a 0 ∧
        ((sim_scores ctx idx).getD a 0 ≤ (sim_scores ctx idx).getD b 0 → b < a) := by
    intro idx
    rw [List.pairwise_reverse]
    exact argsortAsc_pairwise (sim_scores ctx idx)
  refine ⟨?_, ?_, ?_⟩
  · intro h
    simp [get_content_similar_movies, h]
  · rcases hf : ctx.movies_df.findIdx? (fun mv => decide (mv.movieId = movie_id)) with _ | idx
    · simp [get_content_similar_movies, hf]
    · simp only [get_content_similar_movies, hf, List.length_map]
      exact List.length_take_le n _
  · intro idx hf
    refine ⟨?_, ?_, ?_⟩
    · exact (hrevPairwise idx).sublist
        ((List.take_sublist _ _).trans (List.drop_sublist _ _))
    · intro a ha b hb hbnot
      have hsplit := List.take_append_drop n
        (((argsortAsc (sim_scores ctx idx)).reverse).drop 1)
      have hb' : b ∈ List.take n (((argsortAsc (sim_scores ctx idx)).reverse).drop 1) ++
          List.drop n (((argsortAsc (sim_scores ctx idx)).reverse).drop 1) := by
        rw [hsplit]; exact hb
      have hbrest : b ∈ List.drop n (((argsortAsc (sim_scores ctx idx)).reverse).drop 1) := by
        rcases List.mem_append.mp hb' with hbl | hbr
        · exact absurd hbl hbnot
        · exact hbr
      have hdp : (((argsortAsc (sim_scores ctx idx)).reverse).drop 1).Pairwise
          (fun a b => (sim_scores ctx idx).getD b 0 ≤ (sim_scores ctx idx).getD a 0 ∧
            ((sim_scores ctx idx).getD a 0 ≤ (sim_scores ctx idx).getD b 0 → b < a)) :=
        (hrevPairwise idx).sublist (List.drop_sublist _ _)
      rw [← hsplit] at hdp
      exact ((List.pairwise_append.mp hdp).2.2 a ha b hbrest).1
    · intro hstrict hmem
      obtain ⟨hidxlt, hpidx, -⟩ := List.findIdx?_eq_some_iff_getElem.mp hf
      have hidx : idx < (sim_scores ctx idx).length := by
        simpa [sim_scores, hlen] using hidxlt
      have hAne : argsortAsc (sim_scores ctx idx) ≠ [] := by
        intro hA
        have hlen0 := (argsortAsc_perm (sim_scores ctx idx)).symm.length_eq
        rw [hA] at hlen0
        simp only [List.length_range, List.length_nil] at hlen0
        omega
      have hlast := argsortAsc_getLast_of_strict_max hidx hstrict hAne
      have hsplitA := List.dropLast_append_getLast hAne
      rw [hlast] at hsplitA
      have hArev : (argsortAsc (sim_scores ctx idx)).reverse =
          idx :: (argsortAsc (sim_scores ctx idx)).dropLast.reverse := by
        conv_lhs => rw [← hsplitA]
        rw [List.reverse_append]
        rfl
      have hnodupA : (argsortAsc (sim_scores ctx idx)).Nodup :=
        (argsortAsc_perm (sim_scores ctx idx)).nodup_iff.mpr (List.nodup_range _)
      have hidxnot : idx ∉ (argsortAsc (sim_scores ctx idx)).dropLast := by
        intro hin
        rw [← hsplitA] at hnodupA
        obtain ⟨-, -, hdisj⟩ := List.nodup_append.mp hnodupA
        exact hdisj hin (by simp)
      rw [get_content_similar_movies, hf] at hmem
      obtain ⟨j, hj, hjid⟩ := List.mem_map.mp hmem
      have hjdrop : j ∈ (argsortAsc (sim_scores ctx idx)).dropLast.reverse := by
        have : j ∈ ((argsortAsc (sim_scores ctx idx)).reverse).drop 1 :=
          List.Sublist.mem hj (List.take_sublist _ _)
        rw [hArev] at this
        simpa using this
      have hjA : j ∈ argsortAsc (sim_scores ctx idx) := by
        have hjd : j ∈ (argsortAsc (sim_scores ctx idx)).dropLast := by
          simpa using hjdrop
        exact List.Sublist.mem hjd (List.dropLast_sublist _)
      have hjne : j ≠ idx := by
        intro hEq
        rw [hEq] at hjdrop
        exact hidxnot (by simpa using hjdrop)
      have hjlt : j < ctx.movies_df.length := by
        have := (argsortAsc_perm (sim_scores ctx idx)).mem_iff.mp hjA
        have hjlt' : j < (sim_scores ctx idx).length := by simpa using this
        simpa [sim_scores, hlen] using hjlt'
      have hjget : (ctx.movies_df.getD j ⟨0, "", ""⟩).movieId = ctx.movies_df[j].movieId := by
        rw [List.getD_eq_getElem _ _ hjlt]
      have hidget : ctx.movies_df[idx].movieId = movie_id := by simpa using hpidx
      have hjltm : j < (ctx.movies_df.map fun mv => mv.movieId).length := by simpa using hjlt
      have hidxltm : idx < (ctx.movies_df.map fun mv => mv.movieId).length := by
        simpa using hidxlt
      have hmapj : (ctx.movies_df.map fun mv => mv.movieId).get ⟨j, hjltm⟩ =
          ctx.movies_df[j].movieId := by simp
      have hmapidx : (ctx.movies_df.map fun mv => mv.movieId).get ⟨idx, hidxltm⟩ =
          ctx.movies_df[idx].movieId := by simp
      have hEqIds : ctx.movies_df[j].movieId = ctx.movies_df[idx].movieId := by
        rw [← hjget, hjid, ← hidget]
      have hfin : (⟨j, hjltm⟩ : Fin (ctx.movies_df.map fun mv => mv.movieId).length) =
          ⟨idx, hidxltm⟩ := by
        apply hnd.get_inj_iff.mp
        rw [hmapj, hmapidx]
        exact hEqIds
      exact hjne (by simpa using congrArg Fin.val hfin)

/-- C5 counterexample: two movies with identical genre text tie at the
maximal similarity with the query, and the query item itself is returned.
For the catalog below (both genre strings "Action"), `TfidfVectorizer` gives
each movie the one-token unit vector `[1.0]` — the idf of the lone term is
`ln((1+2)/(1+2)) + 1 = 1` and l2-normalisation scales each row to unit
length — so the embedded matrix `[[1], [1]]` is exactly the sklearn output.
The reversed ascending argsort of the tied scores `[1, 1]` is `[1, 0]`;
dropping its first element keeps row 0, the query itself. -/
theorem c5_counterexample :
    (1 : ℤ) ∈ get_content_similar_movies
      ⟨[⟨1, "A", "Action"⟩, ⟨2, "B", "Action"⟩], [[1], [1]], [], none⟩ 1 2 := by decide

/-- Witness for the amended C5 at the concrete context `ctxW`. -/
theorem c5_top_similar_witness :
    (ctxW.tfidf_matrix.length = ctxW.movies_df.length ∧
      (ctxW.movies_df.map fun mv => mv.movieId).Nodup) ∧
    ((ctxW.movies_df.findIdx? (fun mv => decide (mv.movieId = 1)) = none →
      get_content_similar_movies ctxW 1 2 = []) ∧
    (get_content_similar_movies ctxW 1 2).length ≤ 2 ∧
    (∀ idx, ctxW.movies_df.findIdx? (fun mv => decide (mv.movieId = 1)) = some idx →
      ((similarIndices ctxW idx 2).Pairwise fun a b =>
        (sim_scores ctxW idx).getD b 0 ≤ (sim_scores ctxW idx).getD a 0 ∧
        ((sim_scores ctxW idx).getD a 0 ≤ (sim_scores ctxW idx).getD b 0 → b < a)) ∧
      (∀ a ∈ similarIndices ctxW idx 2,
        ∀ b ∈ ((argsortAsc (sim_scores ctxW idx)).reverse).drop 1,
          b ∉ similarIndices ctxW idx 2 →
          (sim_scores ctxW idx).getD b 0 ≤ (sim_scores ctxW idx).getD a 0) ∧
      ((∀ j, j < (sim_scores ctxW idx).length → j ≠ idx →
          (sim_scores ctxW idx).getD j 0 < (sim_scores ctxW idx).getD idx 0) →
        1 ∉ get_content_similar_movies ctxW 1 2))) :=
  ⟨⟨by decide, by decide⟩, c5_top_similar ctxW 1 2 (by decide) (by decide)⟩

end FilmsRec
